import Mathlib

/-!
Shallow embedding of the HangarControl firmware core
(`src/src/main.cpp`): the weekly power-schedule table, its evaluation
algorithm (`checkSchedules`), the downlink decoder (`processDownlink`),
the uplink command builder and periodic job (`statusUpdate`), the send
path (`do_send`), and the transmission / time-synchronization flags.

Machine integers are modelled as `Nat` / `Int` with explicit reductions
(`% 4294967296` for `uint32_t`, `% 256` for `u_int8_t`) where the C code
narrows.  The RTC (external `RTCZero` component) is modelled by its epoch
value together with the standard calendar decomposition used by its
`getHours` / `getMinutes` accessors.
-/

namespace HangarControl

/-- One weekly power-schedule rule.  `Schedule.hpp` is not among the
repository sources; the fields are exactly those read and written by
`main.cpp` (`powerState`, `dow`, `hour`, `min` — C `int`s and a boolean). -/
structure Schedule where
  powerState : Bool
  dow : Int
  hour : Int
  min : Int
deriving Repr, DecidableEq, Inhabited

/-- The global mutable state of the engine in `main.cpp`:
`rtc` epoch (uint32), the `powerSched[25]` array (modelled as a total
function on indices; the C array only has 25 slots, a write at index ≥ 25
is out of bounds there), `schedCount` (`u_int8_t`), `powerState[2]`,
`startUpComplete`, `txInProg`, `timeSet`, and the pending uplink
document `cmdJson`. -/
structure CmdJson where
  cmd : Option String
  myTime : Option Nat
  state : Option (Bool × Bool)
deriving Repr, DecidableEq, Inhabited

/-- The empty JSON document (after `cmdJson.clear()` or at startup). -/
def CmdJson.empty : CmdJson := ⟨none, none, none⟩

/-- `cmdJson.size()`: number of member keys present. -/
def CmdJson.size (d : CmdJson) : Nat :=
  (if d.cmd.isSome then 1 else 0) + (if d.myTime.isSome then 1 else 0) +
    (if d.state.isSome then 1 else 0)

structure EngineState where
  epoch : Nat
  powerSched : Nat → Schedule
  schedCount : Nat
  powerState0 : Bool
  powerState1 : Bool
  startUpComplete : Bool
  txInProg : Bool
  timeSet : Bool
  cmdJson : CmdJson

/-- `rtc.getHours()` of an RTC holding epoch `e` (UTC calendar). -/
def rtcGetHours (e : Nat) : Nat := e % 86400 / 3600

/-- `rtc.getMinutes()` of an RTC holding epoch `e` (UTC calendar). -/
def rtcGetMinutes (e : Nat) : Nat := e % 3600 / 60

/-- `dayOfWeek(now, tz_offset)` from `main.cpp`: Sunday = 0.  C `/` and
`%` on `int` truncate toward zero, hence `Int.tdiv` / `Int.tmod`; the
program only calls this with `tz_offset = 0` and a `uint32` epoch, where
all division conventions agree. -/
def dayOfWeek (now : Nat) (tz_offset : Int) : Int :=
  let localtime : Int := (now : Int) + tz_offset * 60 * 60
  let days_since_epoch : Int := localtime.tdiv 86400
  (days_since_epoch + 4).tmod 7

/-- The loop condition of `checkSchedules` at index `i`:
`curDOW == powerSched[i].dow && rtc.getHours() == powerSched[i].hour
&& rtc.getMinutes() >= powerSched[i].min`. -/
def entryMatches (s : EngineState) (i : Nat) : Bool :=
  (dayOfWeek s.epoch 0 == (s.powerSched i).dow)
    && ((rtcGetHours s.epoch : Int) == (s.powerSched i).hour)
    && (decide ((s.powerSched i).min ≤ (rtcGetMinutes s.epoch : Int)))

/-- The scan of `checkSchedules`: `newState` starts `false` and each
matching entry overwrites it with its `powerState`. -/
def newStateCalc (s : EngineState) : Bool :=
  (List.range s.schedCount).foldl
    (fun newState i =>
      if entryMatches s i then (s.powerSched i).powerState else newState)
    false

/-- `checkSchedules()`: recompute `newState` and, when it differs from
`powerState[0]`, store it and emit the "Turn Power ON/OFF" transition
marker (the returned boolean). -/
def checkSchedules (s : EngineState) : EngineState × Bool :=
  if s.powerState0 != newStateCalc s then
    ({ s with powerState0 := newStateCalc s }, true)
  else
    (s, false)

/-- One element of the `cmd-data` array: a string that `deserializeJson`
either parses into a sub-document with fields `st`, `dow`, `tm`
(`SubDoc.ok`) or fails on (`SubDoc.malformed`).  `main.cpp` ignores the
`deserializeJson` return value, so a malformed element is still decoded
(from the then-empty document). -/
inductive SubDoc where
  | malformed : SubDoc
  | ok (st : Bool) (dow : Int) (tm : String) : SubDoc
deriving Repr, DecidableEq, Inhabited

/-- `atoi` on the 2-character buffers built by `strncpy` in
`processDownlink`: accumulate leading decimal digits, stop at the first
non-digit.  (C `atoi` also skips leading whitespace and a sign; the
buffers here are 2-character copies out of the `tm` field, where the two
agree.  The C buffers are `char[3]` left without a terminating NUL by
`strncpy` when the source holds ≥ 2 characters — modelled as reading
exactly the copied characters.) -/
def atoiAux : List Char → Nat → Nat
  | [], acc => acc
  | c :: cs, acc =>
    if c.isDigit then atoiAux cs (acc * 10 + (c.toNat - 48)) else acc

def atoi (cs : List Char) : Int := Int.ofNat (atoiAux cs 0)

/-- Decoding of one `cmd-data` element into a `Schedule`, as in the
body of the loop in `processDownlink`: `st` and `dow` are read directly,
`tm` is split by `strncpy(hour, time, 2)` / `strncpy(min, time + 2, 2)`
and both halves go through `atoi`.  For a malformed element the code
reads the empty document: `st` decodes to `false`, `dow` to `0`, and
`tm` is a null pointer, so the `strncpy` calls read through address 0 —
undefined behavior in C, modelled as a default entry (no theorem below
depends on these values). -/
def decodeSub : SubDoc → Schedule
  | .ok st dow tm =>
    { powerState := st, dow := dow,
      hour := atoi (tm.data.take 2),
      min := atoi ((tm.data.drop 2).take 2) }
  | .malformed => { powerState := false, dow := 0, hour := 0, min := 0 }

/-- An inbound downlink payload: either `deserializeMsgPack` fails
(`Payload.malformed`) or it yields a document with the `cmd` string, the
`cur-time` integer, and the optional `cmd-data` array (absent field ↦
`none`, which reads as a null `JsonArray` of size 0). -/
inductive Payload where
  | malformed : Payload
  | doc (cmd : String) (curTime : Nat) (cmdData : Option (List SubDoc)) : Payload
deriving Repr, DecidableEq, Inhabited

/-- Arduino `String.equalsIgnoreCase`: character-wise comparison under
`tolower`. -/
def eqIgnoreCase (a b : String) : Bool :=
  a.data.map Char.toLower == b.data.map Char.toLower

/-- The body of the `cmd == "init"` branch of `processDownlink`, before
the final `checkSchedules()` call: set the RTC epoch from `cur-time`
(a `uint32`), set `schedCount` to the size of `cmd-data` (`schedCount`
is a `u_int8_t`), decode entry `i` into `powerSched[i]` for every
`i < schedCount` (the C array only has 25 slots: for `schedCount > 25`
these writes run out of bounds), and set `startUpComplete`. -/
def applyInit (s : EngineState) (curTime : Nat)
    (cmdData : Option (List SubDoc)) : EngineState :=
  let subs := cmdData.getD []
  let n := subs.length % 256
  { s with
    epoch := curTime % 4294967296
    schedCount := n
    powerSched := fun i =>
      if i < n then decodeSub (subs.getD i default) else s.powerSched i
    startUpComplete := true }

/-- `processDownlink`: nothing received (`LMIC.dataLen == 0`) or a
MsgPack decode failure leaves the state untouched (only logged); an
`"init"` command (compared case-insensitively) applies the new clock and
table and immediately re-runs `checkSchedules`; any other command is a
no-op. -/
def processDownlink (s : EngineState) : Option Payload → EngineState
  | none => s
  | some .malformed => s
  | some (.doc cmd curTime cmdData) =>
    if eqIgnoreCase cmd "init" then
      (checkSchedules (applyInit s curTime cmdData)).1
    else s

/-- The two command-building blocks at the top of `statusUpdate`:
before startup every tick writes `cmd = "start"`, `my-time = now`; after
startup, on minutes divisible by 5, the tick writes `cmd = "status"`,
`my-time = now`, `state = [powerState[0], powerState[1]]`.  Writes merge
into the pending `cmdJson` document (fields not written keep their
previous values). -/
def buildCommand (s : EngineState) : EngineState :=
  let s1 :=
    if s.startUpComplete = false then
      { s with cmdJson :=
        { s.cmdJson with cmd := some "start", myTime := some s.epoch } }
    else s
  if s1.startUpComplete && rtcGetMinutes s1.epoch % 5 == 0 then
    { s1 with cmdJson :=
      { s1.cmdJson with
        cmd := some "status"
        myTime := some s1.epoch
        state := some (s1.powerState0, s1.powerState1) } }
  else s1

/-- `do_send()`: skip when the MAC reports `OP_TXRXPEND`; otherwise, when
the pending document is non-empty, serialize it, hand it to
`LMIC_setTxData2` (the returned payload; a send error is only logged)
and clear `cmdJson`.  Note that `txInProg` is NOT set here — no
assignment `txInProg = true` exists anywhere in `main.cpp`. -/
def do_send (opTxRxPend : Bool) (s : EngineState) :
    EngineState × Option CmdJson :=
  if opTxRxPend then (s, none)
  else if s.cmdJson.size > 0 then
    ({ s with cmdJson := CmdJson.empty }, some s.cmdJson)
  else (s, none)

/-- The `if (startUpComplete) checkSchedules();` step of `statusUpdate`. -/
def statusUpdateEval (s : EngineState) : EngineState :=
  if s.startUpComplete then (checkSchedules s).1 else s

/-- The `if (txInProg == false) do_send();` step of `statusUpdate`. -/
def statusUpdateSend (opTxRxPend : Bool) (s : EngineState) :
    EngineState × Option CmdJson :=
  if s.txInProg = false then do_send opTxRxPend s else (s, none)

/-- One firing of the periodic job `statusUpdate` (the re-arming of the
timer itself is external): build the command, run `checkSchedules` when
started up, then attempt `do_send` unless `txInProg`. -/
def statusUpdate (opTxRxPend : Bool) (s : EngineState) :
    EngineState × Option CmdJson :=
  statusUpdateSend opTxRxPend (statusUpdateEval (buildCommand s))

/-- `EV_TXCOMPLETE` handling in `onEvent`: clear `txInProg`
unconditionally (an ACK is only logged), then process any inbound
payload. -/
def onTxComplete (s : EngineState) (down : Option Payload) : EngineState :=
  processDownlink { s with txInProg := false } down

/-- `network_time_cb`: when a network time reference is available, set
the RTC epoch from it and record `timeSet = true`. -/
def network_time_cb (gotReference : Bool) (tNetwork : Nat)
    (s : EngineState) : EngineState :=
  if gotReference then
    { s with epoch := tNetwork % 4294967296, timeSet := true }
  else s

/-- The events the single-threaded control loop can deliver to the
engine. -/
inductive Event where
  | tick (opTxRxPend : Bool) : Event
  | txComplete (down : Option Payload) : Event
  | rxComplete (down : Option Payload) : Event
  | netTime (gotReference : Bool) (tNetwork : Nat) : Event
deriving Repr, DecidableEq, Inhabited

/-- One dispatch of the control loop; the second component is the
payload handed to the transport, if any. -/
def stepEngine (s : EngineState) : Event → EngineState × Option CmdJson
  | .tick op => statusUpdate op s
  | .txComplete d => (onTxComplete s d, none)
  | .rxComplete d => (processDownlink s d, none)
  | .netTime g t => (network_time_cb g t s, none)

/-- A run of the engine over a list of events, collecting the
per-event transport hand-offs. -/
def runEngine (s : EngineState) :
    List Event → EngineState × List (Option CmdJson)
  | [] => (s, [])
  | e :: es =>
    let p := stepEngine s e
    let q := runEngine p.1 es
    (q.1, p.2 :: q.2)

/-- Overwrite only the `timeSet` flag of a state. -/
def setTimeSet (s : EngineState) (b : Bool) : EngineState :=
  { s with timeSet := b }

/-! ### Helper lemmas -/

@[simp] lemma setTimeSet_epoch (s : EngineState) (b : Bool) :
    (setTimeSet s b).epoch = s.epoch := rfl

@[simp] lemma setTimeSet_powerSched (s : EngineState) (b : Bool) :
    (setTimeSet s b).powerSched = s.powerSched := rfl

@[simp] lemma setTimeSet_schedCount (s : EngineState) (b : Bool) :
    (setTimeSet s b).schedCount = s.schedCount := rfl

@[simp] lemma setTimeSet_powerState0 (s : EngineState) (b : Bool) :
    (setTimeSet s b).powerState0 = s.powerState0 := rfl

@[simp] lemma setTimeSet_powerState1 (s : EngineState) (b : Bool) :
    (setTimeSet s b).powerState1 = s.powerState1 := rfl

@[simp] lemma setTimeSet_startUpComplete (s : EngineState) (b : Bool) :
    (setTimeSet s b).startUpComplete = s.startUpComplete := rfl

@[simp] lemma setTimeSet_txInProg (s : EngineState) (b : Bool) :
    (setTimeSet s b).txInProg = s.txInProg := rfl

@[simp] lemma setTimeSet_cmdJson (s : EngineState) (b : Bool) :
    (setTimeSet s b).cmdJson = s.cmdJson := rfl

@[simp] lemma newStateCalc_setTimeSet (s : EngineState) (b : Bool) :
    newStateCalc (setTimeSet s b) = newStateCalc s := rfl

/-- `checkSchedules` only ever touches `powerState[0]`. -/
lemma checkSchedules_fields (s : EngineState) :
    (checkSchedules s).1.epoch = s.epoch
    ∧ (checkSchedules s).1.schedCount = s.schedCount
    ∧ (checkSchedules s).1.powerSched = s.powerSched
    ∧ (checkSchedules s).1.startUpComplete = s.startUpComplete
    ∧ (checkSchedules s).1.txInProg = s.txInProg
    ∧ (checkSchedules s).1.timeSet = s.timeSet
    ∧ (checkSchedules s).1.cmdJson = s.cmdJson
    ∧ (checkSchedules s).1.powerState1 = s.powerState1 := by
  unfold checkSchedules
  split <;> exact ⟨rfl, rfl, rfl, rfl, rfl, rfl, rfl, rfl⟩

/-- After `checkSchedules`, `powerState[0]` holds the scan result. -/
lemma checkSchedules_powerState0 (s : EngineState) :
    (checkSchedules s).1.powerState0 = newStateCalc s := by
  unfold checkSchedules
  split
  · rfl
  · next h => simpa using h

/-- The scan result only reads fields `checkSchedules` never writes. -/
lemma newStateCalc_checkSchedules (s : EngineState) :
    newStateCalc (checkSchedules s).1 = newStateCalc s := by
  unfold checkSchedules
  split <;> rfl

/-- A scan over indices none of which match leaves the accumulator. -/
lemma foldl_no_match (s : EngineState) (l : List Nat) (a : Bool)
    (h : ∀ i ∈ l, entryMatches s i = false) :
    l.foldl (fun newState i =>
      if entryMatches s i then (s.powerSched i).powerState else newState) a
      = a := by
  induction l generalizing a with
  | nil => rfl
  | cons x xs ih =>
    have hx : entryMatches s x = false := h x (List.mem_cons_self x xs)
    simp only [List.foldl_cons, hx, Bool.false_eq_true, if_false]
    exact ih a fun i hi => h i (List.mem_cons_of_mem x hi)

/-- A scan whose last matching index is `j` returns entry `j`'s state. -/
lemma foldl_last_match (s : EngineState) (n j : Nat) (a : Bool)
    (hj : j < n) (hm : entryMatches s j = true)
    (hlast : ∀ k, j < k → k < n → entryMatches s k = false) :
    (List.range n).foldl (fun newState i =>
      if entryMatches s i then (s.powerSched i).powerState else newState) a
      = (s.powerSched j).powerState := by
  induction n generalizing a with
  | zero => exact absurd hj (Nat.not_lt_zero j)
  | succ m ih =>
    rw [List.range_succ, List.foldl_append]
    simp only [List.foldl_cons, List.foldl_nil]
    by_cases hjm : j = m
    · subst hjm
      simp only [hm, if_true]
    · have hjlt : j < m := by omega
      have hmf : entryMatches s m = false := hlast m (by omega) (by omega)
      simp only [hmf, Bool.false_eq_true, if_false]
      exact ih a hjlt fun k h1 h2 => hlast k h1 (by omega)

/-! ### Concrete states used by counterexamples and witnesses -/

/-- The state at power-up: empty table, both outputs off, nothing
pending, no flags set, epoch 0. -/
def baseState : EngineState :=
  { epoch := 0, powerSched := fun _ => default, schedCount := 0,
    powerState0 := false, powerState1 := false, startUpComplete := false,
    txInProg := false, timeSet := false, cmdJson := CmdJson.empty }

/-- An empty schedule table while output 0 is currently ON. -/
def c1state : EngineState := { baseState with powerState0 := true }

/-- The spec's tie-break table: `{dow:1,hr:8,min:0,st:true}` then
`{dow:1,hr:8,min:30,st:false}`, at epoch 377100 = Monday 1970-01-05
08:45:00 UTC. -/
def c4state : EngineState :=
  { baseState with
    epoch := 377100
    powerSched := fun i =>
      if i = 0 then ⟨true, 1, 8, 0⟩
      else if i = 1 then ⟨false, 1, 8, 30⟩
      else default
    schedCount := 2
    powerState0 := true }

/-! ### Claim theorems -/

/-- C1, counterexample: with an empty table (so no entry matches at any
time) and output 0 currently ON, running `checkSchedules` does NOT leave
the desired output state unchanged — it drops to OFF, because the
running candidate starts at `false`, not at the previous state. -/
theorem noMatch_not_unchanged :
    c1state.schedCount = 0 ∧ c1state.powerState0 = true
    ∧ (checkSchedules c1state).1.powerState0 = false :=
  ⟨rfl, rfl, rfl⟩

/-- C1, amended: at a clock time where no entry matches, schedule
evaluation sets the desired output state to OFF (`false`) — the default
candidate state is OFF, so the previous state survives only if it was
already OFF. -/
theorem noMatch_defaults_off (s : EngineState)
    (h : ∀ i, i < s.schedCount → entryMatches s i = false) :
    (checkSchedules s).1.powerState0 = false := by
  have hn : newStateCalc s = false :=
    foldl_no_match s (List.range s.schedCount) false
      fun i hi => h i (List.mem_range.mp hi)
  rw [checkSchedules_powerState0, hn]

theorem noMatch_defaults_off_witness :
    (checkSchedules c1state).1.powerState0 = false :=
  noMatch_defaults_off c1state fun i hi => absurd hi (Nat.not_lt_zero i)

/-- C4: among the entries matching the current day-of-week and hour with
minute threshold reached, the one latest in table order determines the
evaluated output state. -/
theorem last_match_wins (s : EngineState) (j : Nat) (hj : j < s.schedCount)
    (hm : entryMatches s j = true)
    (hlast : ∀ k, j < k → k < s.schedCount → entryMatches s k = false) :
    (checkSchedules s).1.powerState0 = (s.powerSched j).powerState := by
  have hn : newStateCalc s = (s.powerSched j).powerState :=
    foldl_last_match s s.schedCount j false hj hm hlast
  rw [checkSchedules_powerState0, hn]

theorem last_match_wins_witness :
    (checkSchedules c4state).1.powerState0 = (c4state.powerSched 1).powerState
    ∧ (c4state.powerSched 1).powerState = false :=
  ⟨last_match_wins c4state 1 (by decide) (by decide)
      (fun k h1 h2 => absurd h1 (by have h2' : k < 2 := h2; omega)),
    rfl⟩

/-- C8: schedule evaluation is idempotent — a second `checkSchedules` at
the same state changes nothing and raises no transition marker. -/
theorem checkSchedules_idempotent (s : EngineState) :
    (checkSchedules (checkSchedules s).1).1 = (checkSchedules s).1
    ∧ (checkSchedules (checkSchedules s).1).2 = false := by
  have hfix : ∀ t : EngineState, t.powerState0 = newStateCalc t →
      checkSchedules t = (t, false) := by
    intro t ht
    unfold checkSchedules
    rw [← ht]
    simp
  have h1 : (checkSchedules s).1.powerState0
      = newStateCalc (checkSchedules s).1 := by
    rw [checkSchedules_powerState0, newStateCalc_checkSchedules]
  have h2 := hfix (checkSchedules s).1 h1
  exact ⟨by rw [h2], by rw [h2]⟩

/-! ### Downlink processing claims -/

lemma applyInit_epoch (s : EngineState) (ct : Nat)
    (cd : Option (List SubDoc)) :
    (applyInit s ct cd).epoch = ct % 4294967296 := rfl

lemma applyInit_schedCount (s : EngineState) (ct : Nat)
    (cd : Option (List SubDoc)) :
    (applyInit s ct cd).schedCount = (cd.getD []).length % 256 := rfl

lemma applyInit_startUpComplete (s : EngineState) (ct : Nat)
    (cd : Option (List SubDoc)) :
    (applyInit s ct cd).startUpComplete = true := rfl

lemma applyInit_powerSched (s : EngineState) (ct : Nat)
    (cd : Option (List SubDoc)) (i : Nat) :
    (applyInit s ct cd).powerSched i =
      if i < (cd.getD []).length % 256 then
        decodeSub ((cd.getD []).getD i default)
      else s.powerSched i := rfl

lemma processDownlink_init (s : EngineState) (cmd : String) (ct : Nat)
    (cd : Option (List SubDoc)) (hcmd : eqIgnoreCase cmd "init" = true) :
    processDownlink s (some (.doc cmd ct cd))
      = (checkSchedules (applyInit s ct cd)).1 := by
  simp [processDownlink, hcmd]

/-- C3: a well-formed `"init"` downlink with `N ≤ 25` sub-documents
replaces the table by exactly the `N` decoded entries in `cmd-data`
order, sets `startUpComplete`, sets the clock epoch to `cur-time`, and
re-runs schedule evaluation immediately (the resulting output state is
the scan of the new table at the new time).  The final conjunct states
how one `{st, dow, tm}` sub-document with `tm = "HHMM"` decodes. -/
theorem init_applied (s : EngineState) (cmd : String) (curTime : Nat)
    (subs : List SubDoc) (hcmd : eqIgnoreCase cmd "init" = true)
    (hct : curTime < 4294967296) (hn : subs.length ≤ 25) :
    (processDownlink s (some (.doc cmd curTime (some subs)))).schedCount
        = subs.length
    ∧ (processDownlink s
        (some (.doc cmd curTime (some subs)))).startUpComplete = true
    ∧ (processDownlink s (some (.doc cmd curTime (some subs)))).epoch
        = curTime
    ∧ (∀ i, i < subs.length →
        (processDownlink s (some (.doc cmd curTime (some subs)))).powerSched i
          = decodeSub (subs.getD i default))
    ∧ (processDownlink s (some (.doc cmd curTime (some subs)))).powerState0
        = newStateCalc (processDownlink s (some (.doc cmd curTime (some subs))))
    ∧ (∀ (st : Bool) (dow : Int) (a b c d : Char),
        a.isDigit = true → b.isDigit = true →
        c.isDigit = true → d.isDigit = true →
        decodeSub (.ok st dow ⟨[a, b, c, d]⟩)
          = { powerState := st, dow := dow,
              hour := ((10 * (a.toNat - 48) + (b.toNat - 48) : Nat) : Int),
              min := ((10 * (c.toNat - 48) + (d.toNat - 48) : Nat) : Int) }) := by
  rw [processDownlink_init s cmd curTime (some subs) hcmd]
  have hmod : subs.length % 256 = subs.length := Nat.mod_eq_of_lt (by omega)
  obtain ⟨he, hc, hp, hst, -, -, -, -⟩ :=
    checkSchedules_fields (applyInit s curTime (some subs))
  refine ⟨?_, ?_, ?_, ?_, ?_, ?_⟩
  · rw [hc, applyInit_schedCount]
    simpa using hmod
  · rw [hst, applyInit_startUpComplete]
  · rw [he, applyInit_epoch]
    exact Nat.mod_eq_of_lt hct
  · intro i hi
    rw [hp, applyInit_powerSched]
    simp only [Option.getD_some]
    rw [hmod, if_pos hi]
  · rw [checkSchedules_powerState0, newStateCalc_checkSchedules]
  · intro st dow a b c d ha hb hc' hd
    simp only [decodeSub, atoi, atoiAux, List.take, List.drop, ha, hb, hc',
      hd, if_true, Schedule.mk.injEq]
    refine ⟨trivial, trivial, ?_, ?_⟩ <;> · rw [Int.ofNat_eq_natCast]; omega

/-- The concrete `cmd-data` used by the C3 witness. -/
def c3subs : List SubDoc := [.ok true 1 "0830", .ok false 2 "1700"]

theorem init_applied_witness :
    (processDownlink baseState (some (.doc "Init" 1000 (some c3subs)))).schedCount = 2
    ∧ (processDownlink baseState
        (some (.doc "Init" 1000 (some c3subs)))).startUpComplete = true
    ∧ (processDownlink baseState (some (.doc "Init" 1000 (some c3subs)))).epoch
        = 1000
    ∧ (processDownlink baseState
        (some (.doc "Init" 1000 (some c3subs)))).powerSched 0
      = decodeSub (c3subs.getD 0 default) := by
  have h := init_applied baseState "Init" 1000 c3subs (by decide) (by decide)
    (by decide)
  exact ⟨h.1, h.2.1, h.2.2.1, h.2.2.2.1 0 (by decide)⟩

/-- C2 (the code violates the claimed bound): an `"init"` downlink whose
`cmd-data` holds 26 sub-documents drives `schedCount` to 26 > 25 and
writes a decoded entry at index 25 — in the C program that write lands
outside the 25-element `powerSched` array. -/
theorem init_overflow_at_26 :
    (processDownlink baseState
      (some (.doc "init" 0 (some (List.replicate 26 (.ok true 1 "0800")))))).schedCount
        = 26
    ∧ 25 < (processDownlink baseState
        (some (.doc "init" 0
          (some (List.replicate 26 (.ok true 1 "0800")))))).schedCount
    ∧ (processDownlink baseState
        (some (.doc "init" 0
          (some (List.replicate 26 (.ok true 1 "0800")))))).powerSched 25
        = decodeSub (.ok true 1 "0800") :=
  ⟨rfl, by decide, rfl⟩

/-- C5, counterexample: an `"init"` downlink whose single `cmd-data`
sub-document is malformed still mutates the engine — the clock epoch,
the entry count and `startUpComplete` all change, because the code
ignores the sub-document decode error and has already set the epoch and
count before the loop. -/
theorem malformed_subdoc_mutates :
    baseState.startUpComplete = false ∧ baseState.epoch = 0
    ∧ baseState.schedCount = 0
    ∧ (processDownlink baseState
        (some (.doc "init" 5000 (some [SubDoc.malformed])))).startUpComplete
        = true
    ∧ (processDownlink baseState
        (some (.doc "init" 5000 (some [SubDoc.malformed])))).epoch = 5000
    ∧ (processDownlink baseState
        (some (.doc "init" 5000 (some [SubDoc.malformed])))).schedCount = 1 :=
  ⟨rfl, rfl, rfl, rfl, rfl, rfl⟩

/-- C5 (amended): the all-or-nothing guarantee holds only for the
top-level document — a MsgPack decode failure (or an empty reception)
changes nothing.  A malformed `cmd-data` sub-document does NOT abort the
`"init"`: the clock epoch, entry count and `startUpComplete` are still
updated regardless of the sub-documents' well-formedness. -/
theorem downlink_failure_semantics (s : EngineState) (cmd : String)
    (curTime : Nat) (subs : List SubDoc)
    (hcmd : eqIgnoreCase cmd "init" = true) :
    processDownlink s (some Payload.malformed) = s
    ∧ processDownlink s none = s
    ∧ (processDownlink s
        (some (.doc cmd curTime (some subs)))).startUpComplete = true
    ∧ (processDownlink s (some (.doc cmd curTime (some subs)))).epoch
        = curTime % 4294967296
    ∧ (processDownlink s (some (.doc cmd curTime (some subs)))).schedCount
        = subs.length % 256 := by
  rw [processDownlink_init s cmd curTime (some subs) hcmd]
  obtain ⟨he, hc, -, hst, -, -, -, -⟩ :=
    checkSchedules_fields (applyInit s curTime (some subs))
  refine ⟨rfl, rfl, ?_, ?_, ?_⟩
  · rw [hst, applyInit_startUpComplete]
  · rw [he, applyInit_epoch]
  · rw [hc, applyInit_schedCount]
    simp

theorem downlink_failure_semantics_witness :
    processDownlink baseState (some Payload.malformed) = baseState
    ∧ (processDownlink baseState
        (some (.doc "init" 5000000000 (some [SubDoc.malformed])))).epoch
        = 5000000000 % 4294967296 := by
  have h := downlink_failure_semantics baseState "init" 5000000000
    [SubDoc.malformed] (by decide)
  exact ⟨h.1, h.2.2.2.1⟩

/-- C10: an `"init"` whose `cmd-data` is absent or an empty sequence
replaces the table with zero entries (no slot is overwritten), and still
sets `startUpComplete`, so subsequent ticks report status instead of
sending `"start"`. -/
theorem init_empty_cmdData (s : EngineState) (cmd : String) (curTime : Nat)
    (cmdData : Option (List SubDoc))
    (hcmd : eqIgnoreCase cmd "init" = true)
    (hempty : cmdData = none ∨ cmdData = some []) :
    (processDownlink s (some (.doc cmd curTime cmdData))).schedCount = 0
    ∧ (processDownlink s
        (some (.doc cmd curTime cmdData))).startUpComplete = true
    ∧ ∀ i, (processDownlink s (some (.doc cmd curTime cmdData))).powerSched i
        = s.powerSched i := by
  rw [processDownlink_init s cmd curTime cmdData hcmd]
  obtain ⟨-, hc, hp, hst, -, -, -, -⟩ :=
    checkSchedules_fields (applyInit s curTime cmdData)
  have hnil : cmdData.getD [] = [] := by
    rcases hempty with h | h <;> simp [h]
  refine ⟨?_, ?_, ?_⟩
  · rw [hc, applyInit_schedCount, hnil]
    rfl
  · rw [hst, applyInit_startUpComplete]
  · intro i
    rw [hp, applyInit_powerSched, hnil]
    simp

theorem init_empty_cmdData_witness :
    (processDownlink c1state (some (.doc "INIT" 77 none))).schedCount = 0
    ∧ (processDownlink c1state
        (some (.doc "INIT" 77 none))).startUpComplete = true
    ∧ (processDownlink c1state (some (.doc "INIT" 77 none))).powerSched 3
        = c1state.powerSched 3 := by
  have h := init_empty_cmdData c1state "INIT" 77 none (by decide) (Or.inl rfl)
  exact ⟨h.1, h.2.1, h.2.2 3⟩

/-! ### Uplink builder and transmission claims -/

/-- C6: before startup every tick populates `cmd = "start"` and
`my-time = now` (and never `"status"`); after startup a `"status"`
command with `my-time` and the two-element state array is built exactly
when `minute(now) % 5 = 0`, and otherwise the tick populates nothing.
The three cases are mutually exclusive, so at most one `cmd` value is
written per tick. -/
theorem buildCommand_cases (s : EngineState) :
    (s.startUpComplete = false →
      (buildCommand s).cmdJson.cmd = some "start"
      ∧ (buildCommand s).cmdJson.myTime = some s.epoch
      ∧ (buildCommand s).cmdJson.state = s.cmdJson.state)
    ∧ (s.startUpComplete = true → rtcGetMinutes s.epoch % 5 = 0 →
      (buildCommand s).cmdJson
        = { cmd := some "status", myTime := some s.epoch,
            state := some (s.powerState0, s.powerState1) })
    ∧ (s.startUpComplete = true → rtcGetMinutes s.epoch % 5 ≠ 0 →
      buildCommand s = s) := by
  refine ⟨fun h => ?_, fun h h5 => ?_, fun h h5 => ?_⟩
  · simp [buildCommand, h]
  · simp [buildCommand, h, h5]
  · simp [buildCommand, h, h5]

theorem buildCommand_cases_witness :
    (buildCommand c1state).cmdJson.cmd = some "start"
    ∧ (buildCommand c1state).cmdJson.myTime = some 0 :=
  ⟨((buildCommand_cases c1state).1 rfl).1,
    ((buildCommand_cases c1state).1 rfl).2.1⟩

/-- C7 (the code never sets the flag): on a tick where the transport is
idle, nothing is in flight and a `"start"` command is pending, the
command IS handed to the transport, yet `txInProg` is still `false`
afterwards — no assignment `txInProg = true` exists in the program, so
the flag never transitions to true on a hand-off. -/
theorem txInProg_never_true :
    baseState.txInProg = false
    ∧ ((statusUpdate false baseState).2).isSome = true
    ∧ (statusUpdate false baseState).1.txInProg = false :=
  ⟨rfl, rfl, rfl⟩

/-! ### Noninterference of the `timeSet` flag (C9)

No operation of the engine ever reads `timeSet`; only `network_time_cb`
writes it.  Each of the following lemmas shows one operation commutes
with overwriting the flag. -/

lemma checkSchedules_setTimeSet (s : EngineState) (b : Bool) :
    checkSchedules (setTimeSet s b)
      = (setTimeSet (checkSchedules s).1 b, (checkSchedules s).2) := by
  unfold checkSchedules
  simp only [newStateCalc_setTimeSet, setTimeSet_powerState0]
  split <;> rfl

lemma statusUpdateEval_setTimeSet (s : EngineState) (b : Bool) :
    statusUpdateEval (setTimeSet s b)
      = setTimeSet (statusUpdateEval s) b := by
  unfold statusUpdateEval
  simp only [setTimeSet_startUpComplete]
  split
  · rw [checkSchedules_setTimeSet]
  · rfl

lemma do_send_setTimeSet (op : Bool) (s : EngineState) (b : Bool) :
    do_send op (setTimeSet s b)
      = (setTimeSet (do_send op s).1 b, (do_send op s).2) := by
  unfold do_send
  simp only [setTimeSet_cmdJson]
  split
  · rfl
  · split <;> rfl

lemma statusUpdateSend_setTimeSet (op : Bool) (s : EngineState) (b : Bool) :
    statusUpdateSend op (setTimeSet s b)
      = (setTimeSet (statusUpdateSend op s).1 b, (statusUpdateSend op s).2) := by
  unfold statusUpdateSend
  simp only [setTimeSet_txInProg]
  split
  · rw [do_send_setTimeSet]
  · rfl

lemma buildCommand_setTimeSet (s : EngineState) (b : Bool) :
    buildCommand (setTimeSet s b) = setTimeSet (buildCommand s) b := by
  cases hS : s.startUpComplete <;>
    cases h5 : rtcGetMinutes s.epoch % 5 == 0 <;>
      simp [buildCommand, hS, h5, setTimeSet]

lemma statusUpdate_setTimeSet (op : Bool) (s : EngineState) (b : Bool) :
    statusUpdate op (setTimeSet s b)
      = (setTimeSet (statusUpdate op s).1 b, (statusUpdate op s).2) := by
  unfold statusUpdate
  rw [buildCommand_setTimeSet, statusUpdateEval_setTimeSet,
    statusUpdateSend_setTimeSet]

lemma applyInit_setTimeSet (s : EngineState) (ct : Nat)
    (cd : Option (List SubDoc)) (b : Bool) :
    applyInit (setTimeSet s b) ct cd = setTimeSet (applyInit s ct cd) b := rfl

lemma processDownlink_setTimeSet (s : EngineState) (b : Bool)
    (p : Option Payload) :
    processDownlink (setTimeSet s b) p
      = setTimeSet (processDownlink s p) b := by
  match p with
  | none => rfl
  | some .malformed => rfl
  | some (.doc cmd ct cd) =>
    unfold processDownlink
    by_cases h : eqIgnoreCase cmd "init" = true
    · simp only [h, if_true]
      rw [applyInit_setTimeSet, checkSchedules_setTimeSet]
    · simp [h]

lemma onTxComplete_setTimeSet (s : EngineState) (b : Bool)
    (d : Option Payload) :
    onTxComplete (setTimeSet s b) d = setTimeSet (onTxComplete s d) b := by
  unfold onTxComplete
  have h : ({ setTimeSet s b with txInProg := false } : EngineState)
      = setTimeSet { s with txInProg := false } b := rfl
  rw [h, processDownlink_setTimeSet]

lemma network_time_cb_setTimeSet (g : Bool) (t : Nat) (s : EngineState)
    (b : Bool) :
    ∃ b', network_time_cb g t (setTimeSet s b)
      = setTimeSet (network_time_cb g t s) b' := by
  cases g
  · exact ⟨b, rfl⟩
  · exact ⟨true, rfl⟩

lemma stepEngine_setTimeSet (s : EngineState) (b : Bool) (e : Event) :
    ∃ b', stepEngine (setTimeSet s b) e
      = (setTimeSet (stepEngine s e).1 b', (stepEngine s e).2) := by
  cases e with
  | tick op => exact ⟨b, statusUpdate_setTimeSet op s b⟩
  | txComplete d =>
    refine ⟨b, ?_⟩
    simp only [stepEngine]
    rw [onTxComplete_setTimeSet]
  | rxComplete d =>
    refine ⟨b, ?_⟩
    simp only [stepEngine]
    rw [processDownlink_setTimeSet]
  | netTime g t =>
    obtain ⟨b', h⟩ := network_time_cb_setTimeSet g t s b
    refine ⟨b', ?_⟩
    simp only [stepEngine]
    rw [h]

lemma runEngine_setTimeSet (s : EngineState) (b : Bool) (evs : List Event) :
    ∃ b', runEngine (setTimeSet s b) evs
      = (setTimeSet (runEngine s evs).1 b', (runEngine s evs).2) := by
  induction evs generalizing s b with
  | nil => exact ⟨b, rfl⟩
  | cons e es ih =>
    obtain ⟨b1, h1⟩ := stepEngine_setTimeSet s b e
    obtain ⟨b2, h2⟩ := ih (stepEngine s e).1 b1
    refine ⟨b2, ?_⟩
    simp only [runEngine]
    rw [h1]
    dsimp only
    rw [h2]

/-- C9: `timeSet` is write-only.  Two runs of the engine over the same
event sequence from states identical except for the `timeSet` flag
produce identical transport hand-offs, identical output states,
identical pending uplink documents, and final engine states identical
except possibly for `timeSet` itself. -/
theorem timeSet_noninterference (s : EngineState) (b : Bool)
    (evs : List Event) :
    (runEngine (setTimeSet s b) evs).2 = (runEngine s evs).2
    ∧ (runEngine (setTimeSet s b) evs).1.powerState0
        = (runEngine s evs).1.powerState0
    ∧ (runEngine (setTimeSet s b) evs).1.cmdJson
        = (runEngine s evs).1.cmdJson
    ∧ setTimeSet (runEngine (setTimeSet s b) evs).1 false
        = setTimeSet (runEngine s evs).1 false := by
  obtain ⟨b', h⟩ := runEngine_setTimeSet s b evs
  rw [h]
  exact ⟨rfl, rfl, rfl, rfl⟩

end HangarControl
